import Mathlib

/-
  Verification of the method-interception toolkit (asm-hook).

  The repository contains two engines implementing the same seven
  wrapping disciplines:
    * a class-based engine, `ObjectInjection` in src/index.js, which keeps a
      mutable handle (target object, method name, captured old method, a
      rebindable `hook` field, and an `injected` flag);
    * a closure-based engine, `hook` in src/unnamed/part_001 and
      src/unnamed/part_002, where `hook(fn, object, methodName)` captures the
      current slot value, writes a wrapper, and returns an `unhook` closure.

  This file embeds both engines.

  Model 1 (state / reference identity): slot values are symbolic, with
  closures identified by reference ids and wrappers recorded together with the
  target value they captured.  Hosts are mappings from method names to slot
  values.  This model settles the install/uninstall state claims.

  Model 2 (behavior / event traces): handlers and original methods are pure
  functions from (receiver, argument list) to an Except-outcome; every
  wrapper is translated from its source closure and emits an event at each
  call it makes to the handler or to the original, recording the receiver and
  the arguments of that call.  This model settles the per-invocation claims.

  Model 3 (arguments-object identity): the live arguments object of a call is
  a pair of an allocation id and its elements; selected wrappers are
  re-translated at this finer grain to settle the aliasing claim about the
  argument sequence handed to handlers.
-/

namespace AsmHook

/-- The seven wrapping disciplines.  `handle` is the full-control discipline
(the base `hook` of the closure engine). -/
inductive Disc where
  | handle
  | preHook
  | postHook
  | passThrough
  | intercept
  | replace
  | conditionalHook
  deriving DecidableEq, Repr

/-- A symbolic JavaScript slot value.  `callable id` is a function reference
(reference equality is equality of ids); `prim` is a defined, non-callable
value; `wrapper d captured` is the closure created by installing discipline
`d` over the captured target value.  Two wrappers are reference-equal in this
model only when they wrap the same discipline and captured value, which is
adequate for the state claims proved here. -/
inductive SlotVal where
  | undef
  | prim (n : Nat)
  | callable (id : Nat)
  | wrapper (d : Disc) (captured : SlotVal)
  deriving DecidableEq, Repr

/-- A host object, viewed as a mapping from method names to slot values
(src treats the host purely as such a mapping). -/
abbrev Host := String → SlotVal

/-- `object[name] = v`: unconditional slot overwrite. -/
def write (h : Host) (name : String) (v : SlotVal) : Host :=
  fun n => if n = name then v else h n

/-- Result of the closure engine's `hook`: the mutated host, and the returned
`unhook` closure.  `unhook` captured `(object, methodName, target)` and
assigns `object[methodName] = target` to whatever the current state is. -/
structure HookResult where
  newHost : Host
  unhook : Host → Host

/-- src/unnamed/part_002 lines 36-44:
`function hook(fn, object, methodName) { var target = object[methodName];
object[methodName] = function() { return fn.apply(this, [target, arguments]); };
return function unhook() { object[methodName] = target; }; }`.
The installed wrapper is recorded symbolically as `SlotVal.wrapper d target`
where `target` is the slot value read at install time.  The named variants
(preHook, ..., conditionalHook) all delegate to this `hook` with a composed
`fn`, so their state effect is identical and is indexed here by `d`. -/
def ceHook (d : Disc) (host : Host) (name : String) : HookResult :=
  { newHost := write host name (SlotVal.wrapper d (host name))
    unhook := fun h => write h name (host name) }

/-- Constructor-time error of `ObjectInjection` (src/index.js line 40 throws
the string `"Object doesn't contain the method " ++ method`; the message is
defunctionalized to a constructor carrying the method name). -/
inductive CErr where
  | noSuchMethod (method : String)
  deriving DecidableEq, Repr

/-- Handle state of an `ObjectInjection` (src/index.js lines 38-53).  The
target object itself lives outside the handle as a `Host` value; `hookField`
is the defunctionalized `this.hook` (none = `_nullHook`, `some d` = the bound
re-install method for discipline `d`; the extra default value bound by
`conditionalHook` does not affect any state transition and is omitted). -/
structure OI where
  methodName : String
  oldMethod : SlotVal
  hookField : Option Disc
  injected : Bool
  deriving DecidableEq, Repr

/-- The handle produced by a successful `ObjectInjection` constructor run:
`oldMethod` captures `obj[method]` at construction time, `hook` is
`_nullHook`, `injected` is false. -/
def mkOI (host : Host) (name : String) : OI :=
  { methodName := name, oldMethod := host name, hookField := none, injected := false }

/-- src/index.js lines 38-53: the constructor throws iff
`typeof (obj[method]) === 'undefined'`; it performs no callability check and
does not write to the host. -/
def OIconstruct (host : Host) (name : String) : Except CErr OI :=
  if host name = SlotVal.undef then
    Except.error (CErr.noSuchMethod name)
  else
    Except.ok (mkOI host name)

/-- src/index.js lines 76-80: `unhook()` writes `this.oldMethod` back into
`this.target[this.methodName]` and clears `injected`.  (`this.hook` is left
bound.) -/
def OI.unhook (s : OI) (host : Host) : OI × Host :=
  ({ s with injected := false }, write host s.methodName s.oldMethod)

/-- src/index.js lines 251-259 (`_installHook`): if `injected`, first
`unhook()`; then write the discipline's wrapper into the slot, rebind
`this.hook`, and set `injected`.  Every class wrapper closure calls
`that.oldMethod`, and `oldMethod` is assigned only in the constructor, so the
installed wrapper is recorded as capturing the handle's `oldMethod`. -/
def OI.installHook (s : OI) (host : Host) (d : Disc) : OI × Host :=
  let p := if s.injected then s.unhook host else (s, host)
  ({ p.1 with hookField := some d, injected := true },
    write p.2 p.1.methodName (SlotVal.wrapper d p.1.oldMethod))

/-- A sequence of discipline-install operations on one handle
(e.g. `inj.preHook(); inj.replace(); ...`). -/
def OI.installSeq (s : OI) (host : Host) (ds : List Disc) : OI × Host :=
  ds.foldl (fun p d => p.1.installHook p.2 d) (s, host)

/- ===================== Model 2: behavior / event traces ================= -/

/-- Runtime values for the behavioral model. -/
inductive V where
  | undef
  | num (n : Int)
  | str (s : String)
  | bool (b : Bool)
  | ref (id : Nat)
  deriving DecidableEq, Repr

/-- JavaScript truthiness of the modelled values (used by the `if` in the
conditional discipline). -/
def truthy : V → Bool
  | V.undef => false
  | V.num n => n != 0
  | V.str s => s != ""
  | V.bool b => b
  | V.ref _ => true

/-- Observable call events of a wrapped invocation: a call of the
caller-supplied handler, or a call of the original method, each recorded with
the receiver and the arguments of that call. -/
inductive Ev where
  | hcall (recv : V) (args : List V)
  | ocall (recv : V) (args : List V)
  deriving DecidableEq, Repr

/-- The receiver an event's callee executed with. -/
def Ev.recvOf : Ev → V
  | Ev.hcall r _ => r
  | Ev.ocall r _ => r

/-- A pure behavior: what a handler or an original method does, given a
receiver and an argument list.  A thrown error is `Except.error e` with `e`
the thrown value. -/
abbrev Behavior := V → List V → Except V V

/-- Sequencing of traced computations: the second step runs only if the first
succeeded; a thrown error short-circuits, keeping the trace so far. -/
def bindRes {ε : Type} (x : List ε × Except V V) (f : V → List ε × Except V V) :
    List ε × Except V V :=
  match x with
  | (t, Except.error e) => (t, Except.error e)
  | (t, Except.ok v) => (t ++ (f v).1, (f v).2)

/-- Invocation result: the events emitted, and the outcome. -/
abbrev Res := List Ev × Except V V

/-- Call the caller-supplied handler with receiver `recv` and arguments
`args`, recording the call. -/
def callH (h : Behavior) (recv : V) (args : List V) : Res :=
  ([Ev.hcall recv args], h recv args)

/-- Call the original method with receiver `recv` and arguments `args`,
recording the call. -/
def callO (o : Behavior) (recv : V) (args : List V) : Res :=
  ([Ev.ocall recv args], o recv args)

/-- A full-control handler: receives the receiver, the original method, and
the argument list; it may invoke the original however it likes (its internal
activity is its own and is not traced). -/
abbrev FCHandler := V → Behavior → List V → Except V V

/-- src/unnamed/part_002 lines 36-44, the wrapper installed by the base
`hook`: `function() { return fn.apply(this, [target, arguments]); }` — the
composed inner function `c` runs with the live receiver and is handed the
captured target and the call's arguments. -/
def ceWrapper (c : V → Behavior → List V → Res) (target : Behavior) : V → List V → Res :=
  fun recv args => c recv target args

/-- Closure engine, full-control: the user handler is invoked directly by the
base wrapper with the live receiver, the captured target, and the call's
arguments; its return value is the call's return value. -/
def ceHookW (u : FCHandler) (o : Behavior) : V → List V → Res :=
  ceWrapper (fun recv target args => ([Ev.hcall recv args], u recv target args)) o

/-- src/unnamed/part_002 lines 55-64 (`hook.preHook`): run the handler, then
the target, both with the live receiver and the call's arguments; return the
target's value. -/
def cePreHookW (fn o : Behavior) : V → List V → Res :=
  ceWrapper (fun recv target args =>
    bindRes (callH fn recv args) (fun _ => callO target recv args)) o

/-- src/unnamed/part_002 lines 75-85 (`hook.postHook`): run the target, then
the handler; return the target's value. -/
def cePostHookW (fn o : Behavior) : V → List V → Res :=
  ceWrapper (fun recv target args =>
    bindRes (callO target recv args) (fun ret =>
      bindRes (callH fn recv args) (fun _ => ([], Except.ok ret)))) o

/-- src/unnamed/part_002 lines 98-108 (`hook.passThrough`): run the target,
append its return value to a copy of the arguments, call the handler with
that list; return the handler's value. -/
def cePassThroughW (fn o : Behavior) : V → List V → Res :=
  ceWrapper (fun recv target args =>
    bindRes (callO target recv args) (fun ret => callH fn recv (args ++ [ret]))) o

/-- src/unnamed/part_002 lines 119-127 (`hook.intercept`): run the target,
call the handler with just the return value; return the handler's value. -/
def ceInterceptW (fn o : Behavior) : V → List V → Res :=
  ceWrapper (fun recv target args =>
    bindRes (callO target recv args) (fun ret => callH fn recv [ret])) o

/-- src/unnamed/part_002 lines 137-145 (`hook.replace`): never call the
target; call the handler with the live receiver and the call's arguments. -/
def ceReplaceW (fn o : Behavior) : V → List V → Res :=
  ceWrapper (fun recv _ args => callH fn recv args) o

/-- src/unnamed/part_002 lines 161-172 (`hook.conditionalHook`): call the
handler; if its value is truthy, call and return the target, else return the
caller-supplied default value. -/
def ceConditionalW (fn o : Behavior) (dflt : V) : V → List V → Res :=
  ceWrapper (fun recv target args =>
    bindRes (callH fn recv args) (fun b =>
      if truthy b then callO target recv args else ([], Except.ok dflt))) o

/-- src/index.js lines 95-104 (`ObjectInjection.preHook` wrapper):
`that.func.apply(this, arguments); return that.oldMethod.apply(this, arguments);`. -/
def oiPreHookW (func old : Behavior) : V → List V → Res :=
  fun recv args => bindRes (callH func recv args) (fun _ => callO old recv args)

/-- src/index.js lines 115-125 (`ObjectInjection.postHook` wrapper). -/
def oiPostHookW (func old : Behavior) : V → List V → Res :=
  fun recv args =>
    bindRes (callO old recv args) (fun ret =>
      bindRes (callH func recv args) (fun _ => ([], Except.ok ret)))

/-- src/index.js lines 140-155 (`ObjectInjection.passThrough` wrapper): copy
the arguments, call the old method, push its return value, call `func` with
the extended list. -/
def oiPassThroughW (func old : Behavior) : V → List V → Res :=
  fun recv args =>
    bindRes (callO old recv args) (fun ret => callH func recv (args ++ [ret]))

/-- src/index.js lines 170-179 (`ObjectInjection.intercept` wrapper). -/
def oiInterceptW (func old : Behavior) : V → List V → Res :=
  fun recv args =>
    bindRes (callO old recv args) (fun ret => callH func recv [ret])

/-- src/index.js lines 189-194 (`ObjectInjection.replace`): the installed
wrapper is `this.func.bind(this.target)` — the handler runs with the target
host as its fixed receiver, regardless of the receiver the caller used. -/
def oiReplaceW (func : Behavior) (targetHost : V) : V → List V → Res :=
  fun _ args => callH func targetHost args

/-- src/index.js lines 208-219 (`ObjectInjection.conditionalHook` wrapper). -/
def oiConditionalW (func old : Behavior) (dflt : V) : V → List V → Res :=
  fun recv args =>
    bindRes (callH func recv args) (fun b =>
      if truthy b then callO old recv args else ([], Except.ok dflt))

/-- src/index.js lines 235-249 (`ObjectInjection.handle` wrapper): copy the
arguments into a fresh array and call `func` with the old method and that
array, preserving the live receiver. -/
def oiHandleW (func : FCHandler) (old : Behavior) : V → List V → Res :=
  fun recv args => ([Ev.hcall recv args], func recv old args)

/-- All events of a trace were received with receiver `r` (boolean form). -/
def allRecvB (t : List Ev) (r : V) : Bool :=
  t.all (fun e => decide (Ev.recvOf e = r))

/- ================ Model 3: arguments-object identity =================== -/

/-- An argument-sequence object with an allocation identity: `id` is its
reference identity, `elems` its elements in order. -/
structure ArgsObj where
  id : Nat
  elems : List V
  deriving DecidableEq, Repr

/-- Call events at the finer grain of model 3: the argument-sequence object
the callee observes is recorded with its identity. -/
inductive EvI where
  | hcall (recv : V) (args : ArgsObj)
  | ocall (recv : V) (args : ArgsObj)
  deriving DecidableEq, Repr

/-- Invocation result in model 3. -/
abbrev ResI := List EvI × Except V V

/-- src/unnamed/part_002 lines 36-44 at the identity grain: the installed
wrapper runs `fn.apply(this, [target, arguments])`, so the handler receives
the wrapper's own live arguments object itself — no copy is made and no fresh
object is allocated. -/
def hookIdentW (u : V → Behavior → ArgsObj → Except V V) (o : Behavior)
    (recv : V) (live : ArgsObj) (_fresh : Nat) : ResI :=
  ([EvI.hcall recv live], u recv o live)

/-- src/index.js lines 235-249 at the identity grain: the `handle` wrapper
copies the live arguments element-wise into `new Array(l)` (a fresh
allocation) and hands that fresh object to `func`. -/
def handleIdentW (u : V → Behavior → ArgsObj → Except V V) (o : Behavior)
    (recv : V) (live : ArgsObj) (fresh : Nat) : ResI :=
  ([EvI.hcall recv ⟨fresh, live.elems⟩], u recv o ⟨fresh, live.elems⟩)

/-- src/unnamed/part_002 lines 55-64 at the identity grain: `hook.preHook`
calls `fn.apply(this, _arguments)`, spreading the elements; the handler's own
arguments object is a fresh allocation of the call mechanism with the same
elements, and the subsequent `target.apply(this, _arguments)` likewise hands
the target a fresh arguments object. -/
def preHookIdentW (fn o : Behavior) (recv : V) (live : ArgsObj) (fresh : Nat) : ResI :=
  bindRes ([EvI.hcall recv ⟨fresh, live.elems⟩], fn recv live.elems)
    (fun _ => ([EvI.ocall recv ⟨fresh + 1, live.elems⟩], o recv live.elems))

/- ======================= Concrete fixtures ============================= -/

/-- A host whose every slot holds the callable with reference id 7. -/
def hostC : Host := fun _ => SlotVal.callable 7

/-- A host with no defined slots. -/
def hostU : Host := fun _ => SlotVal.undef

/-- A host whose every slot holds a defined, non-callable value. -/
def hostP : Host := fun _ => SlotVal.prim 0

/-- A handler behavior that returns its own receiver (it can observe which
receiver it was invoked with). -/
def fnRecv : Behavior := fun r _ => Except.ok r

/-- A trivial original-method behavior. -/
def oZero : Behavior := fun _ _ => Except.ok (V.num 0)

/-- A handler behavior that returns boolean true. -/
def fnT : Behavior := fun _ _ => Except.ok (V.bool true)

/-- A handler behavior that returns boolean false. -/
def fnF : Behavior := fun _ _ => Except.ok (V.bool false)

/-- A behavior that always throws the string value "boom". -/
def fnBoom : Behavior := fun _ _ => Except.error (V.str "boom")

/-- A full-control handler that always throws the string value "boom". -/
def uBoom : FCHandler := fun _ _ _ => Except.error (V.str "boom")

/-- A full-control handler (model 3) that returns the allocation id of the
argument-sequence object it was handed. -/
def uArgsId : V → Behavior → ArgsObj → Except V V :=
  fun _ _ a => Except.ok (V.num (Int.ofNat a.id))

/-- A handle state that is currently active (injected). -/
def sAct : OI :=
  { methodName := "m", oldMethod := SlotVal.callable 7,
    hookField := some Disc.preHook, injected := true }

/- =========================== Claims ==================================== -/

/-- C1: for every host, slot name and discipline such that install succeeds,
calling the returned uninstall capability restores `host[name]` to be
reference-equal to the captured original callable.  Closure engine: `unhook`
writes the captured target back.  Class engine: the constructor succeeds
(capturing the original), `_installHook` writes the wrapper, and `unhook`
writes the captured `oldMethod` back, for every discipline `d`. -/
theorem C1_round_trip (d : Disc) (host : Host) (name : String)
    (hne : host name ≠ SlotVal.undef) :
    ((ceHook d host name).unhook (ceHook d host name).newHost) name = host name ∧
    OIconstruct host name = Except.ok (mkOI host name) ∧
    (((mkOI host name).installHook host d).1.unhook
      ((mkOI host name).installHook host d).2).2 name = host name := by
  refine ⟨?_, ?_, ?_⟩
  · simp [ceHook, write]
  · simp [OIconstruct, hne]
  · simp [mkOI, OI.installHook, OI.unhook, write]

/-- C1 witness: the round trip evaluated on a concrete host, name and
discipline. -/
theorem C1_round_trip_witness :
    ((ceHook Disc.preHook hostC "m").unhook
      (ceHook Disc.preHook hostC "m").newHost) "m" = hostC "m" ∧
    OIconstruct hostC "m" = Except.ok (mkOI hostC "m") ∧
    (((mkOI hostC "m").installHook hostC Disc.preHook).1.unhook
      ((mkOI hostC "m").installHook hostC Disc.preHook).2).2 "m" = hostC "m" :=
  C1_round_trip Disc.preHook hostC "m" (by decide)

/-- C2: calling the returned uninstall capability twice leaves the slot and
the handle in exactly the same end state as calling it once.  Closure engine:
the `unhook` closure is idempotent on the host state.  Class engine:
`unhook` after `unhook` returns the identical handle state and host. -/
theorem C2_idempotent_uninstall (d : Disc) (host : Host) (name : String)
    (cur : Host) (s : OI) (h2 : Host) :
    (ceHook d host name).unhook ((ceHook d host name).unhook cur)
      = (ceHook d host name).unhook cur ∧
    ((s.unhook h2).1).unhook ((s.unhook h2).2) = s.unhook h2 := by
  constructor
  · funext n
    by_cases hn : n = name <;> simp [ceHook, write, hn]
  · unfold OI.unhook
    simp only [Prod.mk.injEq]
    refine ⟨trivial, ?_⟩
    funext n
    by_cases hn : n = s.methodName <;> simp [write, hn]

/-- C3 counterexample: the claim says every discipline-install fails with
`NotCallableError` and writes nothing when `host[name]` is absent or not
invocable.  In fact the closure engine performs no check at all: on a host
where the slot is absent (`undefined`) it succeeds and writes a wrapper that
captured `undefined`; and the class constructor accepts a defined
non-callable slot value. -/
theorem C3_counterexample :
    (ceHook Disc.replace hostU "m").newHost "m"
      = SlotVal.wrapper Disc.replace SlotVal.undef ∧
    OIconstruct hostP "m" = Except.ok (mkOI hostP "m") := by
  constructor
  · rfl
  · rfl

/-- C3 (amended): the class-based constructor fails (throwing a plain value
naming the method) exactly when `host[name]` is `undefined`, installing
nothing, and accepts any defined value without checking invocability; the
closure-based engine performs no check and always installs a wrapper over
whatever the slot held. -/
theorem C3_install_checks (host : Host) (name : String) (d : Disc) :
    (host name = SlotVal.undef →
      OIconstruct host name = Except.error (CErr.noSuchMethod name)) ∧
    (host name ≠ SlotVal.undef →
      OIconstruct host name = Except.ok (mkOI host name)) ∧
    (ceHook d host name).newHost name = SlotVal.wrapper d (host name) := by
  refine ⟨?_, ?_, ?_⟩
  · intro h; simp [OIconstruct, h]
  · intro h; simp [OIconstruct, h]
  · simp [ceHook, write]

/-- C3 witness: the amended install checks evaluated on concrete hosts. -/
theorem C3_install_checks_witness :
    OIconstruct hostU "m" = Except.error (CErr.noSuchMethod "m") ∧
    OIconstruct hostC "m" = Except.ok (mkOI hostC "m") ∧
    (ceHook Disc.preHook hostC "m").newHost "m"
      = SlotVal.wrapper Disc.preHook (hostC "m") :=
  ⟨(C3_install_checks hostU "m" Disc.preHook).1 rfl,
   (C3_install_checks hostC "m" Disc.preHook).2.1 (by decide),
   (C3_install_checks hostC "m" Disc.preHook).2.2⟩

/-- C4 counterexample: the claim says all seven disciplines in both engines
preserve the caller's receiver, including replace.  The class-based replace
wrapper is `this.func.bind(this.target)`: invoked with caller receiver
`ref 1` on a handle whose target host is `ref 2`, the handler executes with
receiver `ref 2`, not the caller's `ref 1` (its result, which echoes its
receiver, observably differs). -/
theorem C4_counterexample :
    ((oiReplaceW fnRecv (V.ref 2)) (V.ref 1) []).1 = [Ev.hcall (V.ref 2) []] ∧
    ((oiReplaceW fnRecv (V.ref 2)) (V.ref 1) []).2 = Except.ok (V.ref 2) ∧
    decide (V.ref 2 = V.ref 1) = false :=
  ⟨rfl, rfl, by decide⟩

/-- C4 (amended): every call the wrapper itself makes — to the handler or to
the original — uses the caller's receiver, for all seven disciplines of the
closure engine and six of the seven class-engine disciplines; the class-based
replace instead invokes the handler with the fixed target host as receiver.
(For full-control, the handler-entry call is traced; what the handler then
does with the original is its own choice.) -/
theorem C4_receiver_preservation (u : FCHandler) (fn o : Behavior)
    (dflt tgt recv : V) (args : List V) :
    allRecvB ((ceHookW u o) recv args).1 recv = true ∧
    allRecvB ((cePreHookW fn o) recv args).1 recv = true ∧
    allRecvB ((cePostHookW fn o) recv args).1 recv = true ∧
    allRecvB ((cePassThroughW fn o) recv args).1 recv = true ∧
    allRecvB ((ceInterceptW fn o) recv args).1 recv = true ∧
    allRecvB ((ceReplaceW fn o) recv args).1 recv = true ∧
    allRecvB ((ceConditionalW fn o dflt) recv args).1 recv = true ∧
    allRecvB ((oiHandleW u o) recv args).1 recv = true ∧
    allRecvB ((oiPreHookW fn o) recv args).1 recv = true ∧
    allRecvB ((oiPostHookW fn o) recv args).1 recv = true ∧
    allRecvB ((oiPassThroughW fn o) recv args).1 recv = true ∧
    allRecvB ((oiInterceptW fn o) recv args).1 recv = true ∧
    allRecvB ((oiConditionalW fn o dflt) recv args).1 recv = true ∧
    allRecvB ((oiReplaceW fn tgt) recv args).1 tgt = true := by
  have h1 : allRecvB ((ceHookW u o) recv args).1 recv = true := by
    simp [ceHookW, ceWrapper, allRecvB, Ev.recvOf]
  have h2 : allRecvB ((cePreHookW fn o) recv args).1 recv = true := by
    rcases hfn : fn recv args with e | v <;>
      simp [cePreHookW, ceWrapper, bindRes, callH, callO, hfn, allRecvB, Ev.recvOf]
  have h3 : allRecvB ((cePostHookW fn o) recv args).1 recv = true := by
    rcases ho : o recv args with e | v
    · simp [cePostHookW, ceWrapper, bindRes, callH, callO, ho, allRecvB, Ev.recvOf]
    · rcases hfn : fn recv args with e2 | v2 <;>
        simp [cePostHookW, ceWrapper, bindRes, callH, callO, ho, hfn, allRecvB, Ev.recvOf]
  have h4 : allRecvB ((cePassThroughW fn o) recv args).1 recv = true := by
    rcases ho : o recv args with e | v <;>
      simp [cePassThroughW, ceWrapper, bindRes, callH, callO, ho, allRecvB, Ev.recvOf]
  have h5 : allRecvB ((ceInterceptW fn o) recv args).1 recv = true := by
    rcases ho : o recv args with e | v <;>
      simp [ceInterceptW, ceWrapper, bindRes, callH, callO, ho, allRecvB, Ev.recvOf]
  have h6 : allRecvB ((ceReplaceW fn o) recv args).1 recv = true := by
    simp [ceReplaceW, ceWrapper, callH, allRecvB, Ev.recvOf]
  have h7 : allRecvB ((ceConditionalW fn o dflt) recv args).1 recv = true := by
    rcases hfn : fn recv args with e | v
    · simp [ceConditionalW, ceWrapper, bindRes, callH, callO, hfn, allRecvB, Ev.recvOf]
    · cases htv : truthy v <;>
        simp [ceConditionalW, ceWrapper, bindRes, callH, callO, hfn, htv, allRecvB,
          Ev.recvOf]
  have h14 : allRecvB ((oiReplaceW fn tgt) recv args).1 tgt = true := by
    simp [oiReplaceW, callH, allRecvB, Ev.recvOf]
  exact ⟨h1, h2, h3, h4, h5, h6, h7, h1, h2, h3, h4, h5, h7, h14⟩

/-- C5 counterexample: the two engines are not observationally equivalent on
the replace discipline.  With a handler that returns its own receiver,
installed over target host `ref 2` and invoked with caller receiver `ref 1`,
the closure-engine wrapper returns `ref 1` while the class-engine wrapper
returns `ref 2`. -/
theorem C5_counterexample :
    ((ceReplaceW fnRecv oZero) (V.ref 1) []).2 = Except.ok (V.ref 1) ∧
    ((oiReplaceW fnRecv (V.ref 2)) (V.ref 1) []).2 = Except.ok (V.ref 2) ∧
    decide (V.ref 1 = V.ref 2) = false :=
  ⟨rfl, rfl, by decide⟩

/-- C5 (amended): the two engines are observationally equivalent — same
events, arguments, receivers and outcomes on every invocation, and the same
installed slot value and restore-on-uninstall effect — for the full-control,
before-only, after-only, transform-with-context, transform-result-only and
conditional disciplines; they differ on replace, where the class engine fixes
the handler's receiver to the target host. -/
theorem C5_engine_equivalence (u : FCHandler) (fn o : Behavior) (dflt : V)
    (recv : V) (args : List V) (d : Disc) (host : Host) (name : String)
    (h2 : Host) :
    ceHookW u o recv args = oiHandleW u o recv args ∧
    cePreHookW fn o recv args = oiPreHookW fn o recv args ∧
    cePostHookW fn o recv args = oiPostHookW fn o recv args ∧
    cePassThroughW fn o recv args = oiPassThroughW fn o recv args ∧
    ceInterceptW fn o recv args = oiInterceptW fn o recv args ∧
    ceConditionalW fn o dflt recv args = oiConditionalW fn o dflt recv args ∧
    (ceHook d host name).newHost name = ((mkOI host name).installHook host d).2 name ∧
    ((ceHook d host name).unhook h2) name
      = (((mkOI host name).installHook host d).1.unhook h2).2 name := by
  refine ⟨rfl, rfl, rfl, rfl, rfl, rfl, ?_, ?_⟩
  · simp [ceHook, write, mkOI, OI.installHook]
  · simp [ceHook, write, mkOI, OI.installHook, OI.unhook]

/-- Invariant of install sequences on one class-engine handle: the handle's
`methodName` and `oldMethod` are never changed by installs, and after any
nonempty sequence of discipline installs the slot holds exactly the wrapper
of the last installed discipline, capturing `oldMethod`. -/
theorem installSeq_slot_inv (name : String) (orig : SlotVal) :
    ∀ (ds : List Disc) (d0 : Disc) (s : OI) (h : Host),
      s.methodName = name → s.oldMethod = orig →
      (s.installSeq h (d0 :: ds)).2 name = SlotVal.wrapper (ds.getLastD d0) orig ∧
      (s.installSeq h (d0 :: ds)).1.oldMethod = orig ∧
      (s.installSeq h (d0 :: ds)).1.methodName = name := by
  intro ds
  induction ds with
  | nil =>
    intro d0 s h hm ho
    by_cases hi : s.injected <;>
      simp [OI.installSeq, OI.installHook, OI.unhook, write, List.getLastD, hi, hm, ho]
  | cons d1 ds ih =>
    intro d0 s h hm ho
    have hstep : OI.installSeq s h (d0 :: d1 :: ds)
        = OI.installSeq (s.installHook h d0).1 (s.installHook h d0).2 (d1 :: ds) := by
      simp [OI.installSeq]
    have hm2 : (s.installHook h d0).1.methodName = name := by
      by_cases hi : s.injected <;> simp [OI.installHook, OI.unhook, hi, hm]
    have ho2 : (s.installHook h d0).1.oldMethod = orig := by
      by_cases hi : s.injected <;> simp [OI.installHook, OI.unhook, hi, ho]
    rw [hstep, List.getLastD_cons]
    exact ih d1 (s.installHook h d0).1 (s.installHook h d0).2 hm2 ho2

/-- C6: in the stateful-handle engine, a discipline install on an
already-active handle first performs the implicit uninstall (its effect
equals `unhook()` followed by an install on the resulting inactive state),
and after any nonempty sequence of installs on one handle the slot holds
exactly one wrapper of that handle — the wrapper of the last installed
discipline, capturing the construction-time original, never another wrapper
of the same handle. -/
theorem C6_no_stacking (s : OI) (hostA : Host) (d : Disc)
    (hact : s.injected = true) (host : Host) (name : String) (d0 : Disc)
    (ds : List Disc) :
    s.installHook hostA d
      = (s.unhook hostA).1.installHook (s.unhook hostA).2 d ∧
    ((mkOI host name).installSeq host (d0 :: ds)).2 name
      = SlotVal.wrapper (ds.getLastD d0) (host name) ∧
    ((mkOI host name).installSeq host (d0 :: ds)).1.oldMethod = host name := by
  refine ⟨?_, ?_, ?_⟩
  · simp [OI.installHook, OI.unhook, hact]
  · exact (installSeq_slot_inv name (host name) ds d0 (mkOI host name) host rfl rfl).1
  · exact (installSeq_slot_inv name (host name) ds d0 (mkOI host name) host rfl rfl).2.1

/-- C6 witness: an active handle re-installed with another discipline, and a
concrete two-install sequence, evaluated on a concrete host. -/
theorem C6_no_stacking_witness :
    sAct.installHook hostC Disc.replace
      = (sAct.unhook hostC).1.installHook (sAct.unhook hostC).2 Disc.replace ∧
    ((mkOI hostC "m").installSeq hostC (Disc.preHook :: [Disc.replace])).2 "m"
      = SlotVal.wrapper ([Disc.replace].getLastD Disc.preHook) (hostC "m") ∧
    ((mkOI hostC "m").installSeq hostC (Disc.preHook :: [Disc.replace])).1.oldMethod
      = hostC "m" :=
  C6_no_stacking sAct hostC Disc.replace rfl hostC "m" Disc.preHook [Disc.replace]

/-- C7: the conditional discipline, in both engines: the handler runs with
the call's arguments and its result is interpreted as a boolean (JS
truthiness); if truthy, the original runs with the same arguments and its
outcome is the call's outcome; if falsy, the original is never called (the
trace holds only the handler call) and the caller-supplied default value is
returned. -/
theorem C7_conditional_semantics (fn o : Behavior) (dflt recv : V)
    (args : List V) (b : V) (hb : fn recv args = Except.ok b) :
    (truthy b = true →
      (ceConditionalW fn o dflt) recv args
        = ([Ev.hcall recv args, Ev.ocall recv args], o recv args) ∧
      (oiConditionalW fn o dflt) recv args
        = ([Ev.hcall recv args, Ev.ocall recv args], o recv args)) ∧
    (truthy b = false →
      (ceConditionalW fn o dflt) recv args
        = ([Ev.hcall recv args], Except.ok dflt) ∧
      (oiConditionalW fn o dflt) recv args
        = ([Ev.hcall recv args], Except.ok dflt)) := by
  constructor
  · intro ht
    constructor <;>
      simp [ceConditionalW, oiConditionalW, ceWrapper, bindRes, callH, callO, hb, ht]
  · intro ht
    constructor <;>
      simp [ceConditionalW, oiConditionalW, ceWrapper, bindRes, callH, callO, hb, ht]

/-- C7 witness: a truthy handler lets the original run and return; a falsy
handler short-circuits to the default value, evaluated concretely. -/
theorem C7_conditional_witness :
    (ceConditionalW fnT oZero (V.num 9)) (V.ref 1) [V.num 2]
      = ([Ev.hcall (V.ref 1) [V.num 2], Ev.ocall (V.ref 1) [V.num 2]],
         Except.ok (V.num 0)) ∧
    (oiConditionalW fnF oZero (V.num 9)) (V.ref 1) [V.num 2]
      = ([Ev.hcall (V.ref 1) [V.num 2]], Except.ok (V.num 9)) :=
  ⟨((C7_conditional_semantics fnT oZero (V.num 9) (V.ref 1) [V.num 2]
      (V.bool true) rfl).1 rfl).1,
   ((C7_conditional_semantics fnF oZero (V.num 9) (V.ref 1) [V.num 2]
      (V.bool false) rfl).2 rfl).2⟩

/-- C8: the replace discipline, in both engines: the original is never
invoked (the trace holds exactly one handler call and no original call), the
handler receives the call's arguments, and the handler's outcome is the
call's outcome.  (The two engines differ only in the handler's receiver,
which this claim does not constrain.) -/
theorem C8_replace_semantics (fn o : Behavior) (tgt recv : V) (args : List V) :
    (ceReplaceW fn o) recv args = ([Ev.hcall recv args], fn recv args) ∧
    (oiReplaceW fn tgt) recv args = ([Ev.hcall tgt args], fn tgt args) :=
  ⟨rfl, rfl⟩

/-- C9 counterexample: the closure engine's full-control `hook` passes the
handler the live arguments object itself (`fn.apply(this, [target,
arguments])`): on a live object with allocation id 5, the handler receives
the object with id 5 — identical to, not a fresh copy of, the live
call-arguments object — and can observe that id. -/
theorem C9_counterexample :
    (hookIdentW uArgsId oZero (V.ref 0) ⟨5, [V.num 1]⟩ 9).1
      = [EvI.hcall (V.ref 0) ⟨5, [V.num 1]⟩] ∧
    (hookIdentW uArgsId oZero (V.ref 0) ⟨5, [V.num 1]⟩ 9).2
      = Except.ok (V.num 5) :=
  ⟨rfl, rfl⟩

/-- C9 (amended): where an argument sequence is materialized for the handler,
it is a fresh ordered copy — the class-based full-control `handle` copies the
live arguments element-wise into a new array, and spread-style invocations
such as the closure engine's `preHook` give the handler a fresh arguments
object with the same elements — but the closure engine's full-control `hook`
hands the handler the live call-arguments object itself. -/
theorem C9_fresh_args (u : V → Behavior → ArgsObj → Except V V)
    (fn o : Behavior) (recv : V) (live : ArgsObj) (fresh : Nat)
    (hf : live.id < fresh) :
    (handleIdentW u o recv live fresh).1
      = [EvI.hcall recv ⟨fresh, live.elems⟩] ∧
    decide (fresh = live.id) = false ∧
    (preHookIdentW fn o recv live fresh).1.head?
      = some (EvI.hcall recv ⟨fresh, live.elems⟩) ∧
    (hookIdentW u o recv live fresh).1 = [EvI.hcall recv live] := by
  refine ⟨rfl, ?_, ?_, rfl⟩
  · simp only [decide_eq_false_iff_not]
    omega
  · rcases hfn : fn recv live.elems with e | v <;>
      simp [preHookIdentW, bindRes, hfn]

/-- C9 witness: the fresh-copy and aliasing facts evaluated on a concrete
live arguments object with id 5 and fresh id 9. -/
theorem C9_fresh_args_witness :
    (handleIdentW uArgsId oZero (V.ref 0) ⟨5, [V.num 1]⟩ 9).1
      = [EvI.hcall (V.ref 0) ⟨9, [V.num 1]⟩] ∧
    decide ((9 : Nat) = (⟨5, [V.num 1]⟩ : ArgsObj).id) = false ∧
    (preHookIdentW fnT oZero (V.ref 0) ⟨5, [V.num 1]⟩ 9).1.head?
      = some (EvI.hcall (V.ref 0) ⟨9, [V.num 1]⟩) ∧
    (hookIdentW uArgsId oZero (V.ref 0) ⟨5, [V.num 1]⟩ 9).1
      = [EvI.hcall (V.ref 0) ⟨5, [V.num 1]⟩] :=
  C9_fresh_args uArgsId fnT oZero (V.ref 0) ⟨5, [V.num 1]⟩ 9 (by decide)

/-- C10: errors thrown by the handler or the original during a wrapped
invocation propagate unchanged to the caller for every closure-engine
discipline — whichever callee fails first, the wrapper's outcome is exactly
that thrown value, neither caught nor wrapped.  (The wrappers have no access
to the slot store at all — mirroring the source closures, which contain no
slot assignment — so a failing invocation leaves the installed wrapper in
place.) -/
theorem C10_error_propagation (u : FCHandler) (fn o : Behavior) (dflt recv : V)
    (args : List V) (e : V) (r : V) :
    (fn recv args = Except.error e →
      ((cePreHookW fn o) recv args).2 = Except.error e ∧
      ((ceReplaceW fn o) recv args).2 = Except.error e ∧
      ((ceConditionalW fn o dflt) recv args).2 = Except.error e) ∧
    (u recv o args = Except.error e →
      ((ceHookW u o) recv args).2 = Except.error e) ∧
    (o recv args = Except.error e →
      ((cePostHookW fn o) recv args).2 = Except.error e ∧
      ((cePassThroughW fn o) recv args).2 = Except.error e ∧
      ((ceInterceptW fn o) recv args).2 = Except.error e) ∧
    (fn recv args = Except.ok r → o recv args = Except.error e →
      ((cePreHookW fn o) recv args).2 = Except.error e) ∧
    (o recv args = Except.ok r → fn recv args = Except.error e →
      ((cePostHookW fn o) recv args).2 = Except.error e) ∧
    (o recv args = Except.ok r → fn recv (args ++ [r]) = Except.error e →
      ((cePassThroughW fn o) recv args).2 = Except.error e) ∧
    (o recv args = Except.ok r → fn recv [r] = Except.error e →
      ((ceInterceptW fn o) recv args).2 = Except.error e) ∧
    (fn recv args = Except.ok r → truthy r = true → o recv args = Except.error e →
      ((ceConditionalW fn o dflt) recv args).2 = Except.error e) := by
  refine ⟨?_, ?_, ?_, ?_, ?_, ?_, ?_, ?_⟩
  · intro h
    refine ⟨?_, ?_, ?_⟩ <;>
      simp [cePreHookW, ceReplaceW, ceConditionalW, ceWrapper, bindRes, callH,
        callO, h]
  · intro h
    simp [ceHookW, ceWrapper, h]
  · intro h
    refine ⟨?_, ?_, ?_⟩ <;>
      simp [cePostHookW, cePassThroughW, ceInterceptW, ceWrapper, bindRes, callH,
        callO, h]
  · intro h1 h2
    simp [cePreHookW, ceWrapper, bindRes, callH, callO, h1, h2]
  · intro h1 h2
    simp [cePostHookW, ceWrapper, bindRes, callH, callO, h1, h2]
  · intro h1 h2
    simp [cePassThroughW, ceWrapper, bindRes, callH, callO, h1, h2]
  · intro h1 h2
    simp [ceInterceptW, ceWrapper, bindRes, callH, callO, h1, h2]
  · intro h1 h2 h3
    simp [ceConditionalW, ceWrapper, bindRes, callH, callO, h1, h2, h3]

/-- C10 witness: a handler (or an original) that throws the value "boom"
makes every discipline's wrapper rethrow exactly that value, evaluated on
concrete behaviors. -/
theorem C10_error_propagation_witness :
    ((cePreHookW fnBoom oZero) (V.ref 1) []).2 = Except.error (V.str "boom") ∧
    ((ceHookW uBoom oZero) (V.ref 1) []).2 = Except.error (V.str "boom") ∧
    ((cePostHookW fnT fnBoom) (V.ref 1) []).2 = Except.error (V.str "boom") ∧
    ((cePreHookW fnT fnBoom) (V.ref 1) []).2 = Except.error (V.str "boom") ∧
    ((cePostHookW fnBoom oZero) (V.ref 1) []).2 = Except.error (V.str "boom") ∧
    ((cePassThroughW fnBoom oZero) (V.ref 1) []).2 = Except.error (V.str "boom") ∧
    ((ceInterceptW fnBoom oZero) (V.ref 1) []).2 = Except.error (V.str "boom") ∧
    ((ceConditionalW fnT fnBoom (V.num 9)) (V.ref 1) []).2
      = Except.error (V.str "boom") :=
  ⟨((C10_error_propagation uBoom fnBoom oZero (V.num 9) (V.ref 1) []
      (V.str "boom") (V.num 0)).1 rfl).1,
   (C10_error_propagation uBoom fnT oZero (V.num 9) (V.ref 1) []
      (V.str "boom") (V.num 0)).2.1 rfl,
   ((C10_error_propagation uBoom fnT fnBoom (V.num 9) (V.ref 1) []
      (V.str "boom") (V.num 0)).2.2.1 rfl).1,
   (C10_error_propagation uBoom fnT fnBoom (V.num 9) (V.ref 1) []
      (V.str "boom") (V.bool true)).2.2.2.1 rfl rfl,
   (C10_error_propagation uBoom fnBoom oZero (V.num 9) (V.ref 1) []
      (V.str "boom") (V.num 0)).2.2.2.2.1 rfl rfl,
   (C10_error_propagation uBoom fnBoom oZero (V.num 9) (V.ref 1) []
      (V.str "boom") (V.num 0)).2.2.2.2.2.1 rfl rfl,
   (C10_error_propagation uBoom fnBoom oZero (V.num 9) (V.ref 1) []
      (V.str "boom") (V.num 0)).2.2.2.2.2.2.1 rfl rfl,
   (C10_error_propagation uBoom fnT fnBoom (V.num 9) (V.ref 1) []
      (V.str "boom") (V.bool true)).2.2.2.2.2.2.2 rfl rfl rfl⟩

end AsmHook
